import Mathlib

/-!
Verification of the matter-library session client against its specification.

The development shallowly embeds the JavaScript sources:
  * `src/utils/request.js` (Request Client: verb builders, auth-header
    injection, response/error normalization),
  * `src/index.js` (Session Facade: constructor, signup, login, logout,
    getCurrentUser, and the group-membership evaluator).

JavaScript values are modelled by an inductive `JSVal` covering the fragment
the library manipulates (null, undefined, booleans, integer numbers, strings,
arrays, plain objects).  Floating point numbers, prototype chains, and host
objects are outside the modelled fragment; no claim exercises them.

The Token Manager (`src/utils/token.js`) and the Environment Storage
(`src/utils/envStorage.js`) are not part of the provided sources; following
the specification they are modelled from the spec (see the doc comments of
`MatterState`, `tokenData`, `storageGet`, `storageSet`, `storageRemove`).
-/

namespace MatterLib

/-- JavaScript values, restricted to the fragment the library manipulates:
null, undefined, booleans, numbers (integer fragment only — the library never
computes with non-integral numbers), strings, arrays and plain objects
(ordered field lists, first binding wins on lookup; prototype chains are not
modelled). -/
inductive JSVal where
  | null : JSVal
  | undefined : JSVal
  | bool : Bool → JSVal
  | num : Int → JSVal
  | str : String → JSVal
  | arr : List JSVal → JSVal
  | obj : List (String × JSVal) → JSVal

/-- JavaScript truthiness: `null`, `undefined`, `false`, `0` and the empty
string are falsy; every array and object is truthy.  (`NaN` is outside the
modelled fragment.) -/
def truthy : JSVal → Bool
  | .null => false
  | .undefined => false
  | .bool b => b
  | .num n => n ≠ 0
  | .str s => s ≠ ""
  | .arr _ => true
  | .obj _ => true

/-- Field lookup in an object field list (first binding wins). Missing
fields evaluate to `undefined`, as in JavaScript property access. -/
def getField : List (String × JSVal) → String → JSVal
  | [], _ => .undefined
  | (k, v) :: fs, key => if k = key then v else getField fs key

/-- JavaScript property access `v[key]` for the modelled fragment: object
fields are looked up, every other value (primitives, arrays without that
index, boxed booleans, ...) yields `undefined`.  Note that in JavaScript
property access on `null`/`undefined` throws; theorems below only apply this
function to shapes on which the source code performs the access. -/
def getProp (v : JSVal) (key : String) : JSVal :=
  match v with
  | .obj fs => getField fs key
  | _ => .undefined

/-- Presence of a field in an object field list. -/
def hasField : List (String × JSVal) → String → Bool
  | [], _ => false
  | (k, _) :: fs, key => if k = key then true else hasField fs key

/-- lodash `has(v, key)`: direct (own) property check; false on every
non-object value. -/
def hasProp (v : JSVal) (key : String) : Bool :=
  match v with
  | .obj fs => hasField fs key
  | _ => false

/-- JavaScript `a || b`. -/
def jsOr (a b : JSVal) : JSVal :=
  if truthy a then a else b

/-- JavaScript `ToString` on the modelled fragment (used for string
concatenation such as building the bearer header). -/
def jsToString : JSVal → String
  | .null => "null"
  | .undefined => "undefined"
  | .bool b => if b then "true" else "false"
  | .num n => toString n
  | .str s => s
  | .arr _ => ""
  | .obj _ => "[object Object]"

/-- JavaScript `ToNumber` on strings, restricted to the integer fragment:
an optionally signed decimal integer literal (surrounded by optional spaces)
converts to that integer, the empty/whitespace string converts to `0`, and
everything else is `NaN`, represented as `none`. -/
def toNumber? (s : String) : Option Int :=
  let t := s.trim
  if t = "" then some 0
  else
    let (sign, digits) :=
      match t.toList with
      | '-' :: rest => ((-1 : Int), rest)
      | '+' :: rest => ((1 : Int), rest)
      | l => ((1 : Int), l)
    if digits ≠ [] ∧ digits.all (fun c => c.isDigit) then
      some (sign * (Int.ofNat (digits.foldl (fun acc c => acc * 10 + (c.toNat - '0'.toNat)) 0)))
    else none

/-- JavaScript loose equality `n == v` for a number literal on the left,
covering the comparisons the library performs (`status == 401`,
`status == 409`, `status == 400`): numbers compare directly, strings through
`ToNumber`, booleans through their number conversion; `null`, `undefined`,
arrays and objects compare false (no call site compares a status against a
value whose `ToPrimitive` coercion would matter). -/
def looseEqNum (n : Int) (v : JSVal) : Bool :=
  match v with
  | .num m => m = n
  | .str s => toNumber? s = some n
  | .bool b => (if b then (1 : Int) else 0) = n
  | _ => false

/-- JavaScript loose equality `x == v` for a string literal on the left
(the group-name comparison `groupName == group.name`): strings compare by
equality, numbers and booleans through `ToNumber` of the string; `null`,
`undefined`, arrays and objects compare false (object operands would go
through `ToPrimitive`, which no call site exercises on group names). -/
def looseEqStr (x : String) (v : JSVal) : Bool :=
  match v with
  | .str t => x = t
  | .num m => toNumber? x = some m
  | .bool b => toNumber? x = some (if b then (1 : Int) else 0)
  | _ => false

/-! ### Request Client (`src/utils/request.js`) -/

/-- HTTP methods used by the transport. -/
inductive Method where
  | GET : Method
  | POST : Method
  | PUT : Method
  | DELETE : Method
deriving DecidableEq

/-- A superagent request under construction: method, endpoint url, header
list (as set by `.set`), query parameters (as set by `.query`) and JSON body
(as set by `.send`). -/
structure Req where
  method : Method
  url : String
  headers : List (String × String)
  query : JSVal
  body : JSVal

/-- `addAuthHeader(req)` from `src/utils/request.js`: when the Token
Manager's `token.string` is truthy, sets the header
`Authorization: Bearer <token>`; otherwise leaves the request unchanged.
The token string is threaded explicitly (the source reads the token module's
state). -/
def addAuthHeader (tokenString : JSVal) (req : Req) : Req :=
  if truthy tokenString then
    Req.mk req.method req.url
      (req.headers ++ [("Authorization", "Bearer " ++ jsToString tokenString)])
      req.query req.body
  else req

/-- `request.get(endpoint, queryData)`: builds a GET request, attaches the
query object when truthy, then applies `addAuthHeader`. -/
def requestGet (tokenString : JSVal) (endpoint : String) (queryData : JSVal) : Req :=
  addAuthHeader tokenString
    (Req.mk Method.GET endpoint []
      (if truthy queryData then queryData else JSVal.undefined) JSVal.undefined)

/-- `request.post(endpoint, data)`: builds a POST request with `data` as
JSON body, then applies `addAuthHeader`. -/
def requestPost (tokenString : JSVal) (endpoint : String) (data : JSVal) : Req :=
  addAuthHeader tokenString (Req.mk Method.POST endpoint [] JSVal.undefined data)

/-- `request.put(endpoint, data)`: builds a PUT request with `data` as JSON
body, then applies `addAuthHeader`. -/
def requestPut (tokenString : JSVal) (endpoint : String) (data : JSVal) : Req :=
  addAuthHeader tokenString (Req.mk Method.PUT endpoint [] JSVal.undefined data)

/-- `request.del(endpoint, data)`: the source builds the request with
`superagent.put(endpoint, data)` — the same builder as `request.put` — so the
transport request carries method PUT, then applies `addAuthHeader`. -/
def requestDel (tokenString : JSVal) (endpoint : String) (data : JSVal) : Req :=
  addAuthHeader tokenString (Req.mk Method.PUT endpoint [] JSVal.undefined data)

/-- The four verbs of the Request Client's surface. -/
inductive Verb where
  | get : Verb
  | post : Verb
  | put : Verb
  | del : Verb

/-- Dispatch a verb to the corresponding request builder. -/
def builtReq (vb : Verb) (tokenString : JSVal) (endpoint : String) (data : JSVal) : Req :=
  match vb with
  | .get => requestGet tokenString endpoint data
  | .post => requestPost tokenString endpoint data
  | .put => requestPut tokenString endpoint data
  | .del => requestDel tokenString endpoint data

/-- Value of a header on a built request (first occurrence), `none` when the
header was never set. -/
def headerValue : List (String × String) → String → Option String
  | [], _ => none
  | (k, v) :: hs, key => if k = key then some v else headerValue hs key

/-! ### Response normalization (`handleResponse` in `src/utils/request.js`)

The success path runs `try { resolve(JSON.parse(res.body)); } catch(err)
{ resolve(res.body); }`.  `JSON.parse` is a platform builtin; it is modelled
below as a recursive-descent parser over the `JSVal` fragment (JSON with
integer numerals; `\u` escapes and non-integer numbers are outside the
modelled fragment). -/

/-- Skip JSON whitespace. -/
def skipWs : List Char → List Char
  | [] => []
  | c :: cs => if c = ' ' ∨ c = '\n' ∨ c = '\t' ∨ c = '\r' then skipWs cs else c :: cs

/-- Decode one JSON string escape character (after a backslash). -/
def escChar : Char → Option Char
  | '\x22' => some '\x22'
  | '\\' => some '\\'
  | '/' => some '/'
  | 'n' => some '\n'
  | 't' => some '\t'
  | 'r' => some '\r'
  | 'b' => some (Char.ofNat 8)
  | 'f' => some (Char.ofNat 12)
  | _ => none

/-- Parse the body of a JSON string literal (after the opening quote),
returning the decoded characters and the remaining input. -/
def parseStrBody : List Char → Option (List Char × List Char)
  | [] => none
  | '\x22' :: cs => some ([], cs)
  | '\\' :: e :: cs =>
    match escChar e with
    | none => none
    | some c =>
      match parseStrBody cs with
      | none => none
      | some (acc, rest) => some (c :: acc, rest)
  | ['\\'] => none
  | c :: cs =>
    match parseStrBody cs with
    | none => none
    | some (acc, rest) => some (c :: acc, rest)

/-- Take the leading decimal digits of the input. -/
def takeDigits : List Char → List Char × List Char
  | [] => ([], [])
  | c :: cs =>
    if c.isDigit then
      let (d, r) := takeDigits cs
      (c :: d, r)
    else ([], c :: cs)

/-- Numeric value of a digit list. -/
def digitsVal (l : List Char) : Nat :=
  l.foldl (fun a c => a * 10 + (c.toNat - Char.toNat '0')) 0

/-- Parse an unsigned JSON integer literal (no leading zeros; a following
fraction or exponent lies outside the modelled integer fragment and fails). -/
def parseNatLit (cs : List Char) : Option (Nat × List Char) :=
  let (d, r) := takeDigits cs
  if d = [] then none
  else if d.length > 1 ∧ d.head? = some '0' then none
  else
    match r with
    | '.' :: _ => none
    | 'e' :: _ => none
    | 'E' :: _ => none
    | _ => some (digitsVal d, r)

/-- Parse a JSON number literal with optional leading minus sign. -/
def parseNumLit : List Char → Option (JSVal × List Char)
  | '-' :: cs =>
    match parseNatLit cs with
    | some (n, r) => some (.num (-(n : Int)), r)
    | none => none
  | cs =>
    match parseNatLit cs with
    | some (n, r) => some (.num (n : Int), r)
    | none => none

mutual

/-- Parse one JSON value; `fuel` bounds the recursion depth and is chosen
large enough by `jsonParse`. -/
def parseVal : Nat → List Char → Option (JSVal × List Char)
  | 0, _ => none
  | fuel + 1, cs =>
    match skipWs cs with
    | 'n' :: 'u' :: 'l' :: 'l' :: rest => some (.null, rest)
    | 't' :: 'r' :: 'u' :: 'e' :: rest => some (.bool true, rest)
    | 'f' :: 'a' :: 'l' :: 's' :: 'e' :: rest => some (.bool false, rest)
    | '\x22' :: rest =>
      match parseStrBody rest with
      | none => none
      | some (b, r) => some (.str (String.mk b), r)
    | '[' :: rest =>
      (match skipWs rest with
       | ']' :: r2 => some (.arr [], r2)
       | r1 =>
         match parseElems fuel r1 with
         | none => none
         | some (l, r) => some (.arr l, r))
    | '\x7b' :: rest =>
      (match skipWs rest with
       | '\x7d' :: r2 => some (.obj [], r2)
       | r1 =>
         match parseMembers fuel r1 with
         | none => none
         | some (l, r) => some (.obj l, r))
    | c :: rest => if c = '-' ∨ c.isDigit then parseNumLit (c :: rest) else none
    | [] => none

/-- Parse the comma-separated elements of a JSON array (at least one),
including the closing bracket. -/
def parseElems : Nat → List Char → Option (List JSVal × List Char)
  | 0, _ => none
  | fuel + 1, cs =>
    match parseVal fuel cs with
    | none => none
    | some (v, r) =>
      match skipWs r with
      | ',' :: r2 =>
        (match parseElems fuel r2 with
         | none => none
         | some (l, rest) => some (v :: l, rest))
      | ']' :: r2 => some ([v], r2)
      | _ => none

/-- Parse the comma-separated members of a JSON object (at least one),
including the closing brace. -/
def parseMembers : Nat → List Char → Option (List (String × JSVal) × List Char)
  | 0, _ => none
  | fuel + 1, cs =>
    match skipWs cs with
    | '\x22' :: r1 =>
      (match parseStrBody r1 with
       | none => none
       | some (k, r2) =>
         match skipWs r2 with
         | ':' :: r3 =>
           (match parseVal fuel r3 with
            | none => none
            | some (v, r4) =>
              match skipWs r4 with
              | ',' :: r5 =>
                (match parseMembers fuel r5 with
                 | none => none
                 | some (l, rest) => some ((String.mk k, v) :: l, rest))
              | '\x7d' :: r5 => some ([(String.mk k, v)], r5)
              | _ => none)
         | _ => none)
    | _ => none

end

/-- Model of `JSON.parse` on a body text: parse one value surrounded by
optional whitespace, requiring the whole input to be consumed; `none` models
the thrown `SyntaxError`. -/
def jsonParse (s : String) : Option JSVal :=
  match parseVal (s.length + 1) s.toList with
  | some (v, rest) => if (skipWs rest).isEmpty then some v else none
  | none => none

/-- Success path of `handleResponse`: attempt `JSON.parse` on the body text
and resolve with the parsed value; when parsing throws, resolve with the raw
body text instead (`try { resolve(JSON.parse(res.body)); } catch(err)
{ resolve(res.body); }`). -/
def handleSuccessBody (body : String) : JSVal :=
  match jsonParse body with
  | some v => v
  | none => .str body

/-- Error path of `handleResponse`: the rejection value.  The source reads
`const error = (response && response.body) ? response.body.error : errorRes;`
and rejects with `error.message || error`. -/
def normalizeError (errorRes : JSVal) : JSVal :=
  let resp := getProp errorRes "response"
  let error :=
    if truthy resp ∧ truthy (getProp resp "body") then getProp (getProp resp "body") "error"
    else errorRes
  jsOr (getProp error "message") error

/-! ### Environment Storage and Token Manager state

Modelled from the spec: `src/utils/envStorage.js` and `src/utils/token.js`
are not part of the provided sources.  Per the spec, Environment Storage is a
synchronous key/value store whose `get` on a missing key returns null and
which round-trips structured records exactly; the Token Manager owns the raw
token string (string or null) and its decoded claims, decoding being a pure
function of the token string that degrades to null claims on an empty token
or a decode failure. -/

/-- Modelled from the spec: Environment Storage `get(key)` — the stored
value, or null when the key is missing. -/
def storageGet : List (String × JSVal) → String → JSVal
  | [], _ => .null
  | (k, v) :: rest, key => if k = key then v else storageGet rest key

/-- Modelled from the spec: Environment Storage `remove(key)`. -/
def storageRemove (s : List (String × JSVal)) (key : String) : List (String × JSVal) :=
  s.filter (fun kv => kv.1 ≠ key)

/-- Modelled from the spec: Environment Storage `set(key, value)`; structured
values round-trip exactly. -/
def storageSet (s : List (String × JSVal)) (key : String) (v : JSVal) : List (String × JSVal) :=
  (key, v) :: storageRemove s key

/-- Modelled from the spec: the fixed storage key (`config.tokenUserDataName`)
under which the Session Facade caches the serialized account record;
`src/config.js` is not part of the provided sources, so the literal name is
a stand-in for the fixed, stable key the spec requires. -/
def tokenUserDataName : String := "matter_currentUserData"

/-- Mutable state visible to the Session Facade: the Token Manager's raw
token value (a JS value — the spec's string-or-null domain) and the
Environment Storage contents.  Modelled from the spec for the parts whose
source (`token.js`, `envStorage.js`) is not provided. -/
structure MatterState where
  tokenString : JSVal
  storage : List (String × JSVal)

/-- Modelled from the spec: Token Manager `delete()` — clears the token (and
with it the decoded claims, which are a pure function of the string). -/
def tokenDelete (st : MatterState) : MatterState :=
  MatterState.mk JSVal.null st.storage

/-- Modelled from the spec: Token Manager `set string(value)` — stores the
new token value; decoded claims are recomputed from it on next access. -/
def tokenSet (st : MatterState) (v : JSVal) : MatterState :=
  MatterState.mk v st.storage

/-- Modelled from the spec: Token Manager `get data` — the decoded claims of
the current token, null when there is no token; `decode` is the pure
decoding function of the token string (a decode failure is `decode`
returning null). -/
def tokenData (decode : String → JSVal) (st : MatterState) : JSVal :=
  match st.tokenString with
  | .str s => if s = "" then .null else decode s
  | _ => .null

/-- `get isLoggedIn` from `src/index.js`: `this.token.string ? true : false`. -/
def isLoggedIn (st : MatterState) : Bool :=
  truthy st.tokenString

/-- The `currentUser` getter from `src/index.js`: the stored account record
when truthy, else null. -/
def currentUserGet (st : MatterState) : JSVal :=
  let v := storageGet st.storage tokenUserDataName
  if truthy v then v else .null

/-- The `currentUser` setter from `src/index.js`:
`this.storage.setItem(config.tokenUserDataName, userData)`. -/
def currentUserSet (st : MatterState) (userData : JSVal) : MatterState :=
  MatterState.mk st.tokenString (storageSet st.storage tokenUserDataName userData)

/-! ### Session Facade (`src/index.js`) -/

/-- Settled value of a returned promise. -/
inductive Outcome where
  | resolved : JSVal → Outcome
  | rejected : JSVal → Outcome

/-- A network call issued by the Session Facade through the Request Client:
verb, path relative to the app endpoint (endpoint construction itself is out
of the claims' scope) and body. -/
structure FacadeCall where
  method : Method
  path : String
  body : JSVal

/-- The Session Facade instance data stored by the constructor. -/
structure MatterInstance where
  name : JSVal
  options : JSVal

/-- The `Matter` constructor from `src/index.js`: a falsy application name
throws synchronously (`throw new Error(...)` — modelled as `Except.error`, as
opposed to the asynchronous `Outcome.rejected` used by the operations);
otherwise the name is stored on the instance, and options, when provided, are
stored as well (the `config.logLevel` side effect concerns the logger, which
is out of the claims' scope). -/
def matterConstructor (appName : JSVal) (opts : JSVal) : Except String MatterInstance :=
  if ¬ truthy appName then
    Except.error "Application name is required to use Matter"
  else
    Except.ok (MatterInstance.mk appName (if truthy opts then opts else JSVal.undefined))

/-- Typed rejection value `{message, status}`. -/
def rejectionVal (message status : String) : JSVal :=
  .obj [("message", .str message), ("status", .str status)]

/-- lodash `isObject`: true for objects and arrays (functions and boxed
primitives are outside the modelled fragment), false for primitives. -/
def isObjectLike : JSVal → Bool
  | .obj _ => true
  | .arr _ => true
  | _ => false

/-- lodash `isString`: true for string primitives. -/
def isStringVal : JSVal → Bool
  | .str _ => true
  | _ => false

/-- JavaScript strict equality with the empty string (`value === ''`). -/
def strictEqEmptyStr : JSVal → Bool
  | .str s => s = ""
  | _ => false

/-- Result of a signup flow: either validation/network behaviour (the calls
issued and the settled outcome), or delegation to the external Provider-Auth
collaborator (string input). -/
inductive SignupResult where
  | run : List FacadeCall → Outcome → SignupResult
  | provider : String → SignupResult

/-- `signup(signupData)` from `src/index.js`.  Validation happens before any
network call: falsy or non-object/non-string data rejects with status
`NULL_DATA`; object data without a truthy `username` or `email` rejects with
`ID_REQUIRED`; object data without a truthy `password` rejects with
`PASS_REQUIRED`.  Otherwise one POST to `/signup` is issued and the handler
resolves with `response.account` when present, else with the response; a
network failure is re-rejected unchanged.  String data delegates to the
Provider-Auth collaborator.  `net` is the normalized outcome of the network
call (only reached on the network path). -/
def signupRun (signupData : JSVal) (net : Except JSVal JSVal) : SignupResult :=
  if (!truthy signupData || (!isObjectLike signupData && !isStringVal signupData)) then
    .run [] (.rejected (rejectionVal "Signup data is required to signup." "NULL_DATA"))
  else
    match signupData with
    | .str s => .provider s
    | d =>
      if ¬ truthy (getProp d "username") ∧ ¬ truthy (getProp d "email") then
        .run [] (.rejected (rejectionVal "Email or Username required to signup." "ID_REQUIRED"))
      else if ¬ truthy (getProp d "password") then
        .run [] (.rejected (rejectionVal "Password is required to signup." "PASS_REQUIRED"))
      else
        .run [FacadeCall.mk Method.POST "/signup" d]
          (match net with
           | .ok response =>
             .resolved (if hasProp response "account" then getProp response "account" else response)
           | .error errRes => .rejected errRes)

/-- Result of a login flow: calls issued, resulting state and settled
outcome, or delegation to the external Provider-Auth collaborator. -/
inductive LoginResult where
  | run : List FacadeCall → MatterState → Outcome → LoginResult
  | provider : String → LoginResult

/-- The token-storage step of login's success handler: a `token` field of
the response, when present, is stored via the Token Manager
(`if (has(response, 'token')) this.token.string = response.token`). -/
def loginTokenStep (st : MatterState) (response : JSVal) : MatterState :=
  if hasProp response "token" then tokenSet st (getProp response "token") else st

/-- The `.then` handler of `login` in `src/index.js`, applied to the resolved
response.  A response whose `data.status` is loosely 409 rejects with
`response.data`.  Otherwise the token is stored (`loginTokenStep`); the
resolved account comes from `response.account` when present, else from the
decoded claims of the (possibly just-updated) token — remapped to
`{username, name, authrocketId}` when the AuthRocket short-name field `un`
is present, taken verbatim otherwise — else a minimal record
`{token: token.string}`; the account is then written to Environment Storage
and resolved. -/
def loginThen (decode : String → JSVal) (st : MatterState) (response : JSVal) :
    MatterState × Outcome :=
  if hasProp response "data" ∧ hasProp (getProp response "data") "status" ∧
      looseEqNum 409 (getProp (getProp response "data") "status") then
    (st, .rejected (getProp response "data"))
  else
    let st1 := loginTokenStep st response
    let td := tokenData decode st1
    let userAccount :=
      if hasProp response "account" then getProp response "account"
      else if truthy td then
        (if truthy (getProp td "un") then
          JSVal.obj [("username", getProp td "un"),
                     ("name", jsOr (getProp td "n") .null),
                     ("authrocketId", jsOr (getProp td "uid") .null)]
        else td)
      else JSVal.obj [("token", st1.tokenString)]
    (currentUserSet st1 userAccount, .resolved userAccount)

/-- The `.catch` handler of `login`: a rejection whose status is loosely 409
or 400 is replaced by `errRes.response.text`; every other rejection is
re-rejected unchanged. -/
def loginCatch (errRes : JSVal) : Outcome :=
  if looseEqNum 409 (getProp errRes "status") ∨ looseEqNum 400 (getProp errRes "status") then
    .rejected (getProp (getProp errRes "response") "text")
  else .rejected errRes

/-- `login(loginData)` from `src/index.js`.  Falsy or non-object/non-string
data rejects with status `DATA_REQUIRED`; object data without a truthy
`username` or `email` rejects with `ID_REQUIRED`; object data whose
`password` is falsy or the empty string rejects with `PASS_REQUIRED` — all
before any network call.  Otherwise one PUT to `/login` is issued and handled
by `loginThen` / `loginCatch`.  String data delegates to the Provider-Auth
collaborator. -/
def loginRun (decode : String → JSVal) (st : MatterState) (loginData : JSVal)
    (net : Except JSVal JSVal) : LoginResult :=
  if (!truthy loginData || (!isObjectLike loginData && !isStringVal loginData)) then
    .run [] st (.rejected (rejectionVal "Login data is required to login." "DATA_REQUIRED"))
  else
    match loginData with
    | .str s => .provider s
    | d =>
      if ¬ truthy (getProp d "username") ∧ ¬ truthy (getProp d "email") then
        .run [] st (.rejected (rejectionVal "Email or Username required to login." "ID_REQUIRED"))
      else if (!truthy (getProp d "password") || strictEqEmptyStr (getProp d "password")) then
        .run [] st (.rejected (rejectionVal "Password is required to login." "PASS_REQUIRED"))
      else
        match net with
        | .ok response =>
          let (st2, out) := loginThen decode st response
          .run [FacadeCall.mk Method.PUT "/login" d] st2 out
        | .error errRes =>
          .run [FacadeCall.mk Method.PUT "/login" d] st (loginCatch errRes)

/-- `logout()` from `src/index.js`.  Without a token: a typed rejection with
status `NULL_ACCOUNT` and no network call.  With a token: one PUT to
`/logout`; on success the cached account is nulled (`this.currentUser =
null`) and the token deleted, then the response is resolved; on failure the
cached account key is removed from storage and the token deleted, then the
error is re-rejected. -/
def logoutRun (st : MatterState) (net : Except JSVal JSVal) :
    List FacadeCall × MatterState × Outcome :=
  if ¬ isLoggedIn st then
    ([], st, .rejected (rejectionVal "No logged in account to log out." "NULL_ACCOUNT"))
  else
    ([FacadeCall.mk Method.PUT "/logout" JSVal.undefined],
     match net with
     | .ok response => (tokenDelete (currentUserSet st JSVal.null), .resolved response)
     | .error errRes =>
       (tokenDelete (MatterState.mk st.tokenString (storageRemove st.storage tokenUserDataName)),
        .rejected errRes))

/-- `getCurrentUser()` from `src/index.js`.  A truthy cached account resolves
immediately with no network call; with no token it resolves null with no
network call; otherwise one GET to `/user` is issued — on success the
response is cached and resolved; on failure, a rejection whose status is
loosely 401 deletes the token and resolves null, every other rejection is
re-rejected. -/
def getCurrentUserRun (st : MatterState) (net : Except JSVal JSVal) :
    List FacadeCall × MatterState × Outcome :=
  if truthy (currentUserGet st) then ([], st, .resolved (currentUserGet st))
  else if ¬ isLoggedIn st then ([], st, .resolved .null)
  else
    ([FacadeCall.mk Method.GET "/user" JSVal.undefined],
     match net with
     | .ok response => (currentUserSet st response, .resolved response)
     | .error errRes =>
       if looseEqNum 401 (getProp errRes "status") then (tokenDelete st, .resolved .null)
       else (st, .rejected errRes))

/-! ### Group-membership evaluation (`isInGroup` / `isInGroups`)

The two methods are mutually recursive through comma-splitting of string
arguments and through the `name` field of object entries; termination is by
an explicit numeric measure on the argument. -/

/-- `String.prototype.split(',')` on the character list: the empty input
yields one empty piece, separators at either end yield empty pieces. -/
def splitCommaChars : List Char → List (List Char)
  | [] => [[]]
  | c :: cs =>
    let r := splitCommaChars cs
    if c = ',' then [] :: r else (c :: r.headD []) :: r.tail

theorem splitCommaChars_ne_nil (cs : List Char) : splitCommaChars cs ≠ [] := by
  induction cs with
  | nil => simp [splitCommaChars]
  | cons c cs ih =>
    by_cases hc : c = ',' <;> simp [splitCommaChars, hc]

theorem splitCommaChars_cons_form (cs : List Char) :
    ∃ q qs, splitCommaChars cs = q :: qs := by
  cases h : splitCommaChars cs with
  | nil => exact absurd h (splitCommaChars_ne_nil cs)
  | cons q qs => exact ⟨q, qs, rfl⟩

theorem length_splitCommaChars (cs : List Char) :
    (splitCommaChars cs).length = cs.count ',' + 1 := by
  induction cs with
  | nil => simp [splitCommaChars]
  | cons c cs ih =>
    obtain ⟨q, qs, hq⟩ := splitCommaChars_cons_form cs
    by_cases hc : c = ','
    · simp [splitCommaChars, hc, hq, List.count_cons]
      rw [hq] at ih
      simp at ih
      omega
    · simp [splitCommaChars, hc, hq, List.count_cons]
      rw [hq] at ih
      simp at ih
      omega

theorem count_of_mem_splitCommaChars {p : List Char} {cs : List Char}
    (h : p ∈ splitCommaChars cs) : p.count ',' = 0 := by
  induction cs generalizing p with
  | nil =>
    simp [splitCommaChars] at h
    simp [h]
  | cons c cs ih =>
    obtain ⟨q, qs, hq⟩ := splitCommaChars_cons_form cs
    by_cases hc : c = ','
    · rw [splitCommaChars] at h
      simp only [hc, if_pos rfl] at h
      rcases List.mem_cons.mp h with h1 | h1
      · simp [h1]
      · exact ih h1
    · rw [splitCommaChars] at h
      simp only [if_neg hc] at h
      rcases List.mem_cons.mp h with h1 | h1
      · subst h1
        have hqmem : q ∈ splitCommaChars cs := by
          rw [hq]; exact List.mem_cons_self q qs
        have hq0 := ih hqmem
        rw [hq] at *
        simp only [List.headD_cons]
        simp [List.count_cons, hq0, hc]
      · rw [hq] at h1
        simp only [List.tail_cons] at h1
        exact ih (by rw [hq]; exact List.mem_cons_of_mem q h1)

theorem count_headD_splitCommaChars (cs : List Char) :
    ((splitCommaChars cs).headD []).count ',' = 0 := by
  obtain ⟨q, qs, hq⟩ := splitCommaChars_cons_form cs
  rw [hq]
  simp only [List.headD_cons]
  exact count_of_mem_splitCommaChars (by rw [hq]; exact List.mem_cons_self q qs)

theorem splitCommaChars_eq_of_count_zero {cs : List Char} (h : cs.count ',' = 0) :
    splitCommaChars cs = [cs] := by
  induction cs with
  | nil => simp [splitCommaChars]
  | cons c cs ih =>
    simp only [List.count_cons] at h
    by_cases hc : c = ','
    · simp [hc] at h
    · have h0 : cs.count ',' = 0 := by
        simp [hc] at h
        omega
      simp [splitCommaChars, ih h0, hc]

theorem toList_mk (l : List Char) : (String.mk l).toList = l := rfl

mutual

/-- Termination measure for the group evaluator: strings weigh by their
comma count, containers by the sum of their contents. -/
def measureS : JSVal → Nat
  | .str s => 8 * s.toList.count ',' + 2
  | .arr l => 2 + measureSList l
  | .obj fs => 2 + measureSFields fs
  | _ => 1

def measureSList : List JSVal → Nat
  | [] => 0
  | v :: vs => measureS v + measureSList vs

def measureSFields : List (String × JSVal) → Nat
  | [] => 0
  | kv :: fs => measureS kv.2 + measureSFields fs

end

theorem measureS_mem_le {v : JSVal} {l : List JSVal} (h : v ∈ l) :
    measureS v ≤ measureSList l := by
  induction l with
  | nil => cases h
  | cons w ws ih =>
    rcases List.mem_cons.mp h with h1 | h1
    · subst h1
      simp [measureSList]
    · have := ih h1
      simp only [measureSList]
      omega

theorem measureS_getField_le (fs : List (String × JSVal)) (k : String)
    (h : hasField fs k = true) : measureS (getField fs k) ≤ measureSFields fs := by
  induction fs with
  | nil => simp [hasField] at h
  | cons kv fs ih =>
    obtain ⟨k1, v1⟩ := kv
    simp only [hasField] at h
    simp only [getField, measureSFields]
    by_cases hk : k1 = k
    · simp [hk]
    · rw [if_neg hk] at h ⊢
      have := ih h
      omega

theorem measureS_getProp_lt {g : JSVal} {k : String} (h : hasProp g k = true) :
    measureS (getProp g k) + 2 ≤ measureS g := by
  cases g with
  | obj fs =>
    simp only [getProp, measureS]
    have := measureS_getField_le fs k (by simpa [hasProp] using h)
    omega
  | null => simp [hasProp] at h
  | undefined => simp [hasProp] at h
  | bool b => simp [hasProp] at h
  | num n => simp [hasProp] at h
  | str s => simp [hasProp] at h
  | arr l => simp [hasProp] at h

theorem measureSList_map_split (cs : List Char) :
    measureSList ((splitCommaChars cs).map (fun l => JSVal.str (String.mk l))) =
      2 * (splitCommaChars cs).length := by
  have key : ∀ ps : List (List Char), (∀ p ∈ ps, p.count ',' = 0) →
      measureSList (ps.map (fun l => JSVal.str (String.mk l))) = 2 * ps.length := by
    intro ps
    induction ps with
    | nil => intro _; simp [measureSList]
    | cons p ps ih =>
      intro hall
      have hp : p.count ',' = 0 := hall p (List.mem_cons_self p ps)
      have hrest := ih (fun q hq => hall q (List.mem_cons_of_mem p hq))
      simp only [List.map_cons, measureSList, measureS, toList_mk, hp, hrest,
        List.length_cons]
      ring
  exact key _ (fun p hp => count_of_mem_splitCommaChars hp)

/-- lodash `some(collection, predicate)` (imported as `any` from lodash 3):
arrays iterate their elements, plain objects their values, strings their
characters; nullish and other primitive collections yield false. -/
def lodashAny (coll : JSVal) (p : JSVal → Bool) : Bool :=
  match coll with
  | .arr l => l.any p
  | .obj fs => fs.any (fun kv => p kv.2)
  | .str s => s.toList.any (fun c => p (.str (String.mk [c])))
  | _ => false

/-- lodash `every(list, true)` as called by `isInGroups`: the non-function
second argument `true` goes through lodash's iteratee shorthand and becomes
the property accessor `value["true"]`; on the boolean elements produced by
the surrounding `map` that property is always `undefined`, hence falsy. -/
def lodashEveryTrue (l : List Bool) : Bool :=
  l.all (fun b => truthy (getProp (.bool b) "true"))

/-- Tie-break for the group-evaluator termination measure (`isInGroup`). -/
def tagInGroup : JSVal → Nat
  | .arr _ => 1
  | _ => 0

/-- Tie-break for the group-evaluator termination measure (`isInGroups`). -/
def tagInGroups : JSVal → Nat
  | .str _ => 1
  | _ => 0

theorem tagInGroup_le_one (v : JSVal) : tagInGroup v ≤ 1 := by
  cases v <;> simp [tagInGroup]

theorem measureS_str_eq (s : String) : measureS (.str s) = 8 * s.toList.count ',' + 2 := by
  simp [measureS]

theorem measureS_arr_split (cs : List Char) :
    measureS (.arr ((splitCommaChars cs).map (fun l => JSVal.str (String.mk l)))) =
      2 + 2 * (cs.count ',' + 1) := by
  simp [measureS, measureSList_map_split, length_splitCommaChars]

mutual

/-- `isInGroup(checkGroups)` from `src/index.js`: false when anonymous or
for a falsy argument; a string argument is split on commas — several pieces
delegate to `isInGroups` on the split list, a single piece is compared with
the `name` of each entry of the decoded claims' `groups` list
(`any(groups, group => groupName == group.name)`); an array argument
delegates to `isInGroups`; every other shape yields false. -/
def isInGroup (decode : String → JSVal) (st : MatterState) (checkGroups : JSVal) : Bool :=
  if !(isLoggedIn st) then false
  else if !(truthy checkGroups) then false
  else
    match checkGroups with
    | .str groupName =>
      let groupsArray := splitCommaChars groupName.toList
      if h : groupsArray.length > 1 then
        isInGroups decode st (.arr (groupsArray.map (fun l => JSVal.str (String.mk l))))
      else
        lodashAny (jsOr (getProp (tokenData decode st) "groups") (.arr []))
          (fun group => looseEqStr groupName (getProp group "name"))
    | .arr l => isInGroups decode st (.arr l)
    | _ => false
termination_by 2 * measureS checkGroups + tagInGroup checkGroups
decreasing_by
· have h' : (splitCommaChars groupName.toList).length > 1 := h
  have hlen := length_splitCommaChars groupName.toList
  have hsplit := measureS_arr_split groupName.toList
  have hstr := measureS_str_eq groupName
  simp only [tagInGroup, tagInGroups]
  omega
· simp [tagInGroup, tagInGroups]

/-- `isInGroups(checkGroups)` from `src/index.js`: false when anonymous or
for a falsy argument; an array argument maps every entry — a string entry
through `isInGroup`, an object entry through `isInGroup` of its `name` field
when present and false otherwise — and folds the resulting booleans with
`every(..., true)`; a string argument splits on commas, delegating to
`isInGroups` on several pieces and to `isInGroup` on a single piece; every
other shape yields false. -/
def isInGroups (decode : String → JSVal) (st : MatterState) (checkGroups : JSVal) : Bool :=
  if !(isLoggedIn st) then false
  else if !(truthy checkGroups) then false
  else
    match checkGroups with
    | .arr l =>
      lodashEveryTrue (l.attach.map (fun g =>
        match g with
        | ⟨.str s, _⟩ => isInGroup decode st (.str s)
        | ⟨other, _⟩ =>
          if hname : hasProp other "name" then isInGroup decode st (getProp other "name")
          else false))
    | .str s =>
      let groupsArray := splitCommaChars s.toList
      if h : groupsArray.length > 1 then
        isInGroups decode st (.arr (groupsArray.map (fun l => JSVal.str (String.mk l))))
      else
        isInGroup decode st (.str (String.mk (groupsArray.headD [])))
    | _ => false
termination_by 2 * measureS checkGroups + tagInGroups checkGroups
decreasing_by
· have hmem : JSVal.str s ∈ l := by assumption
  have hle := measureS_mem_le hmem
  simp only [measureS, tagInGroup, tagInGroups] at hle ⊢
  omega
· have hmem : other ∈ l := by assumption
  have hle := measureS_mem_le hmem
  have hlt := measureS_getProp_lt hname
  have htag := tagInGroup_le_one (getProp other "name")
  simp only [measureS, tagInGroups]
  omega
· have h' : (splitCommaChars s.toList).length > 1 := h
  have hlen := length_splitCommaChars s.toList
  have hsplit := measureS_arr_split s.toList
  have hstr := measureS_str_eq s
  simp only [tagInGroup, tagInGroups]
  omega
· have hstr := measureS_str_eq s
  have hpiece : measureS (.str (String.mk ((splitCommaChars s.toList).headD []))) = 2 := by
    rw [measureS_str_eq, toList_mk, count_headD_splitCommaChars]
  simp only [tagInGroup, tagInGroups]
  omega

end

/-! ### Helper lemmas -/

theorem storageGet_storageSet (s : List (String × JSVal)) (k : String) (v : JSVal) :
    storageGet (storageSet s k v) k = v := by
  simp [storageSet, storageGet]

theorem storageGet_storageRemove (s : List (String × JSVal)) (k : String) :
    storageGet (storageRemove s k) k = .null := by
  induction s with
  | nil => simp [storageRemove, storageGet]
  | cons kv rest ih =>
    by_cases hk : kv.1 = k
    · simpa [storageRemove, hk] using ih
    · simpa [storageRemove, storageGet, hk] using ih

theorem currentUserGet_currentUserSet (st : MatterState) (v : JSVal)
    (h : truthy v = true) : currentUserGet (currentUserSet st v) = v := by
  simp [currentUserGet, currentUserSet, storageGet_storageSet, h]

theorem truthy_of_getProp {v : JSVal} {k : String} (h : truthy (getProp v k) = true) :
    truthy v = true := by
  cases v <;> simp_all [getProp, truthy]

/-! ### Claim theorems -/

/-- C1: for every verb of the Request Client (get, post, put, del), the built
transport request carries the header `Authorization: Bearer <token>` exactly
when the Token Manager's token string is a non-empty string, and carries no
Authorization header when the token is null or the empty string. -/
theorem auth_header_iff_token (vb : Verb) (endpoint : String) (data : JSVal) :
    (∀ s : String, s ≠ "" →
      headerValue (builtReq vb (.str s) endpoint data).headers "Authorization" =
        some ("Bearer " ++ s)) ∧
    headerValue (builtReq vb JSVal.null endpoint data).headers "Authorization" = none ∧
    headerValue (builtReq vb (.str "") endpoint data).headers "Authorization" = none := by
  refine ⟨fun s hs => ?_, ?_, ?_⟩ <;>
    cases vb <;>
      simp [builtReq, requestGet, requestPost, requestPut, requestDel, addAuthHeader,
        truthy, jsToString, headerValue, *]

/-- C1 witness: with token string `T`, the del verb carries the bearer
header. -/
theorem auth_header_iff_token_witness :
    headerValue (builtReq Verb.del (.str "T") "/a" JSVal.undefined).headers "Authorization" =
      some ("Bearer " ++ "T") :=
  (auth_header_iff_token Verb.del "/a" JSVal.undefined).1 "T" (by decide)

/-- C7: the `del` verb of the Request Client builds the transport request
with method PUT (the source calls `superagent.put`), not DELETE — for every
token, endpoint and body. -/
theorem del_issues_put (tok : JSVal) (endpoint : String) (data : JSVal) :
    (requestDel tok endpoint data).method = Method.PUT ∧
    (requestDel tok endpoint data).method ≠ Method.DELETE := by
  constructor <;> simp [requestDel, addAuthHeader] <;> split <;> simp

/-- C6: on transport success the Request Client resolves with the JSON parse
of the body when it parses, and with the raw body text when it does not
(never a thrown parse failure — the function is total); in particular the
body text of the object with field a mapped to 1 resolves to that object,
and the non-JSON body `ok` resolves to the literal string `ok`. -/
theorem response_normalization_roundtrip :
    handleSuccessBody "\x7b\"a\":1\x7d" = .obj [("a", .num 1)] ∧
    handleSuccessBody "ok" = .str "ok" ∧
    ∀ body : String,
      (∀ v, jsonParse body = some v → handleSuccessBody body = v) ∧
      (jsonParse body = none → handleSuccessBody body = .str body) := by
  refine ⟨rfl, rfl, fun body => ⟨fun v hv => ?_, fun hn => ?_⟩⟩
  · simp [handleSuccessBody, hv]
  · simp [handleSuccessBody, hn]

/-- C6 witness: the two round-trip examples, through the general statement. -/
theorem response_normalization_roundtrip_witness :
    handleSuccessBody "\x7b\"a\":1\x7d" = .obj [("a", .num 1)] ∧
    handleSuccessBody "ok" = .str "ok" :=
  ⟨(response_normalization_roundtrip.2.2 "\x7b\"a\":1\x7d").1 (.obj [("a", .num 1)]) rfl,
    (response_normalization_roundtrip.2.2 "ok").2 rfl⟩

/-- C10: constructing the Session Facade with a missing (null/undefined) or
empty application name throws synchronously (an `Except.error`, not a
rejected promise `Outcome`); with any non-empty name the constructor
succeeds and stores the name on the instance. -/
theorem constructor_requires_app_name :
    (∀ opts, matterConstructor JSVal.null opts =
      Except.error "Application name is required to use Matter") ∧
    (∀ opts, matterConstructor JSVal.undefined opts =
      Except.error "Application name is required to use Matter") ∧
    (∀ opts, matterConstructor (.str "") opts =
      Except.error "Application name is required to use Matter") ∧
    (∀ s : String, s ≠ "" → ∀ opts, ∃ inst, matterConstructor (.str s) opts = Except.ok inst ∧
      inst.name = .str s) := by
  refine ⟨fun opts => rfl, fun opts => rfl, fun opts => rfl, fun s hs opts => ?_⟩
  refine ⟨MatterInstance.mk (.str s) (if truthy opts then opts else JSVal.undefined), ?_, rfl⟩
  simp [matterConstructor, truthy, hs]

/-- C10 witness: a concrete non-empty name succeeds and stores the name. -/
theorem constructor_requires_app_name_witness :
    ∃ inst, matterConstructor (.str "exampleApp") JSVal.undefined = Except.ok inst ∧
      inst.name = .str "exampleApp" :=
  constructor_requires_app_name.2.2.2 "exampleApp" (by decide) JSVal.undefined

/-- C3: logout without a token rejects with status NULL_ACCOUNT and issues no
network call; with a token it issues exactly the logout call and — on the
success path and the failure path alike — ends with the token deleted and the
cached account record cleared, resolving the response on success and
re-rejecting the error on failure. -/
theorem logout_always_clears (st : MatterState) (net : Except JSVal JSVal) :
    (isLoggedIn st = false →
      logoutRun st net =
        ([], st, .rejected (rejectionVal "No logged in account to log out." "NULL_ACCOUNT"))) ∧
    (isLoggedIn st = true →
      (logoutRun st net).1 = [FacadeCall.mk Method.PUT "/logout" JSVal.undefined] ∧
      (logoutRun st net).2.1.tokenString = JSVal.null ∧
      currentUserGet (logoutRun st net).2.1 = JSVal.null ∧
      (∀ r, net = .ok r → (logoutRun st net).2.2 = .resolved r) ∧
      (∀ e, net = .error e → (logoutRun st net).2.2 = .rejected e)) := by
  constructor
  · intro h
    simp [logoutRun, h]
  · intro h
    refine ⟨?_, ?_, ?_, fun r hr => ?_, fun e he => ?_⟩
    · cases net <;> simp [logoutRun, h]
    · cases net <;> simp [logoutRun, h, tokenDelete]
    · cases net <;>
        simp [logoutRun, h, tokenDelete, currentUserSet, currentUserGet,
          storageGet_storageSet, storageGet_storageRemove, truthy]
    · subst hr
      simp [logoutRun, h]
    · subst he
      simp [logoutRun, h]

/-- C3 witness: without a token, the typed NULL_ACCOUNT rejection with no
network call; with a token and a failing network call, the token is still
cleared. -/
theorem logout_always_clears_witness :
    logoutRun (MatterState.mk JSVal.null []) (.ok JSVal.null) =
      ([], MatterState.mk JSVal.null [],
        .rejected (rejectionVal "No logged in account to log out." "NULL_ACCOUNT")) ∧
    (logoutRun (MatterState.mk (.str "T") [(tokenUserDataName, .obj [("username", .str "u")])])
      (.error (.str "boom"))).2.1.tokenString = JSVal.null :=
  ⟨(logout_always_clears (MatterState.mk JSVal.null []) (.ok JSVal.null)).1 rfl,
    ((logout_always_clears
      (MatterState.mk (.str "T") [(tokenUserDataName, .obj [("username", .str "u")])])
      (.error (.str "boom"))).2 rfl).2.1⟩

/-- The transport failure refuting C4: an HTTP 401 whose response body
carries an error object with a message. -/
def raw401WithMessage : JSVal :=
  .obj [("status", .num 401), ("message", .str "Unauthorized"),
    ("response", .obj [("body", .obj [("error", .obj [("message", .str "Unauthorized")])])])]

/-- C4 counterexample: a transport failure with status 401 whose body error
carries a message is normalized by the Request Client to the bare message
string; getCurrentUser then rejects with that string and keeps the token —
it neither clears the token nor resolves null, contrary to the claim. -/
theorem getCurrentUser_401_message_rejects :
    normalizeError raw401WithMessage = .str "Unauthorized" ∧
    getCurrentUserRun (MatterState.mk (.str "T") []) (.error (normalizeError raw401WithMessage)) =
      ([FacadeCall.mk Method.GET "/user" JSVal.undefined], MatterState.mk (.str "T") [],
        .rejected (.str "Unauthorized")) ∧
    (MatterState.mk (.str "T") []).tokenString ≠ JSVal.null := by
  refine ⟨rfl, rfl, by simp⟩

/-- C4 amended: on the fetch path (no cached account, token present),
getCurrentUser clears the token and resolves null exactly when the
normalized rejection value of the failed transport carries a status loosely
equal to 401; every other failure is rejected with the normalized error and
leaves the state unchanged. -/
theorem getCurrentUser_401_normalized (st : MatterState) (rawErr : JSVal)
    (hcache : truthy (currentUserGet st) = false)
    (hauth : isLoggedIn st = true) :
    (looseEqNum 401 (getProp (normalizeError rawErr) "status") = true →
      getCurrentUserRun st (.error (normalizeError rawErr)) =
        ([FacadeCall.mk Method.GET "/user" JSVal.undefined], tokenDelete st, .resolved .null)) ∧
    (looseEqNum 401 (getProp (normalizeError rawErr) "status") = false →
      getCurrentUserRun st (.error (normalizeError rawErr)) =
        ([FacadeCall.mk Method.GET "/user" JSVal.undefined], st,
          .rejected (normalizeError rawErr))) := by
  constructor <;> intro h <;> simp [getCurrentUserRun, hcache, hauth, h]

/-- A transport failure whose body error carries status 401 and no message:
the one shape on which the 401 branch of getCurrentUser fires. -/
def raw401NoMessage : JSVal :=
  .obj [("status", .num 401),
    ("response", .obj [("body", .obj [("error", .obj [("status", .num 401)])])])]

/-- C4 amended witness: on the message-free 401 body error, getCurrentUser
clears the token and resolves null. -/
theorem getCurrentUser_401_normalized_witness :
    getCurrentUserRun (MatterState.mk (.str "T") []) (.error (normalizeError raw401NoMessage)) =
      ([FacadeCall.mk Method.GET "/user" JSVal.undefined],
        tokenDelete (MatterState.mk (.str "T") []), .resolved .null) :=
  (getCurrentUser_401_normalized (MatterState.mk (.str "T") []) raw401NoMessage rfl rfl).1 rfl

/-- C5 counterexample: login with null data rejects with status
DATA_REQUIRED — not the NULL_DATA status the claim asserts for null/invalid
data — and issues no network call. -/
theorem login_null_data_is_data_required :
    loginRun (fun _ => JSVal.null) (MatterState.mk JSVal.null []) JSVal.null
        (.error JSVal.null) =
      .run [] (MatterState.mk JSVal.null [])
        (.rejected (rejectionVal "Login data is required to login." "DATA_REQUIRED")) ∧
    getProp (rejectionVal "Login data is required to login." "DATA_REQUIRED") "status" =
      .str "DATA_REQUIRED" ∧
    JSVal.str "DATA_REQUIRED" ≠ JSVal.str "NULL_DATA" := by
  refine ⟨rfl, rfl, by simp⟩

/-- C5 amended: signup and login validate structured input before any
network call and fail fast with a typed rejection — null/invalid data yields
status NULL_DATA for signup and DATA_REQUIRED for login, input with neither
username nor email yields ID_REQUIRED (in particular login of the empty
object), missing password yields PASS_REQUIRED; no network call is issued in
any of these cases. -/
theorem validation_before_network (decode : String → JSVal) (st : MatterState)
    (net : Except JSVal JSVal) :
    (∀ d, (truthy d = false ∨ (isObjectLike d = false ∧ isStringVal d = false)) →
      signupRun d net =
        .run [] (.rejected (rejectionVal "Signup data is required to signup." "NULL_DATA")) ∧
      loginRun decode st d net =
        .run [] st (.rejected (rejectionVal "Login data is required to login." "DATA_REQUIRED"))) ∧
    (∀ fs, truthy (getProp (.obj fs) "username") = false →
        truthy (getProp (.obj fs) "email") = false →
      signupRun (.obj fs) net =
        .run [] (.rejected (rejectionVal "Email or Username required to signup." "ID_REQUIRED")) ∧
      loginRun decode st (.obj fs) net =
        .run [] st (.rejected (rejectionVal "Email or Username required to login." "ID_REQUIRED"))) ∧
    (∀ fs, (truthy (getProp (.obj fs) "username") = true ∨
        truthy (getProp (.obj fs) "email") = true) →
        truthy (getProp (.obj fs) "password") = false →
      signupRun (.obj fs) net =
        .run [] (.rejected (rejectionVal "Password is required to signup." "PASS_REQUIRED")) ∧
      loginRun decode st (.obj fs) net =
        .run [] st (.rejected (rejectionVal "Password is required to login." "PASS_REQUIRED"))) ∧
    loginRun decode st (.obj []) net =
      .run [] st (.rejected (rejectionVal "Email or Username required to login." "ID_REQUIRED")) := by
  refine ⟨fun d hd => ?_, fun fs hu he => ?_, fun fs hid hp => ?_, rfl⟩
  · rcases hd with hd | ⟨ho, hs⟩
    · constructor <;> simp [signupRun, loginRun, hd]
    · constructor <;> simp [signupRun, loginRun, ho, hs]
  · have h1 : truthy (JSVal.obj fs) = true := rfl
    have h2 : isObjectLike (JSVal.obj fs) = true := rfl
    have h3 : isStringVal (JSVal.obj fs) = false := rfl
    constructor <;> simp [signupRun, loginRun, h1, h2, h3, hu, he]
  · have h1 : truthy (JSVal.obj fs) = true := rfl
    have h2 : isObjectLike (JSVal.obj fs) = true := rfl
    have h3 : isStringVal (JSVal.obj fs) = false := rfl
    rcases hid with hid | hid <;>
      constructor <;>
        simp [signupRun, loginRun, h1, h2, h3, hid, hp]

/-- C5 amended witness: a signup missing its password rejects with
PASS_REQUIRED, and login of the empty object rejects with ID_REQUIRED. -/
theorem validation_before_network_witness :
    signupRun (.obj [("username", .str "u")]) (.error JSVal.null) =
      .run [] (.rejected (rejectionVal "Password is required to signup." "PASS_REQUIRED")) ∧
    loginRun (fun _ => JSVal.null) (MatterState.mk JSVal.null []) (.obj []) (.error JSVal.null) =
      .run [] (MatterState.mk JSVal.null [])
        (.rejected (rejectionVal "Email or Username required to login." "ID_REQUIRED")) :=
  ⟨((validation_before_network (fun _ => JSVal.null) (MatterState.mk JSVal.null [])
      (.error JSVal.null)).2.2.1 [("username", .str "u")] (Or.inl (by decide)) (by decide)).1,
    ((validation_before_network (fun _ => JSVal.null) (MatterState.mk JSVal.null [])
      (.error JSVal.null)).2.1 [] rfl rfl).2⟩

/-- C8: when login succeeds (the response does not trip the 409 reject
check), carries no `account`, and the decoded claims of the effective token
carry the legacy AuthRocket short-name field `un`, the resolved account is
the legacy claims remapped to username / name / authrocketId (the spec's
provider-id field) — username from `un`, the other two defaulting to null
through `x || null` when absent — and that account is written to the
cached-account storage key. -/
theorem login_legacy_claims_remap (decode : String → JSVal) (st : MatterState)
    (response : JSVal)
    (hnot409 : ¬(hasProp response "data" = true ∧
      hasProp (getProp response "data") "status" = true ∧
      looseEqNum 409 (getProp (getProp response "data") "status") = true))
    (hacct : hasProp response "account" = false)
    (hun : truthy (getProp (tokenData decode (loginTokenStep st response)) "un") = true) :
    loginThen decode st response =
      (currentUserSet (loginTokenStep st response)
        (JSVal.obj [
          ("username", getProp (tokenData decode (loginTokenStep st response)) "un"),
          ("name", jsOr (getProp (tokenData decode (loginTokenStep st response)) "n") .null),
          ("authrocketId",
            jsOr (getProp (tokenData decode (loginTokenStep st response)) "uid") .null)]),
       .resolved (JSVal.obj [
          ("username", getProp (tokenData decode (loginTokenStep st response)) "un"),
          ("name", jsOr (getProp (tokenData decode (loginTokenStep st response)) "n") .null),
          ("authrocketId",
            jsOr (getProp (tokenData decode (loginTokenStep st response)) "uid") .null)])) ∧
    currentUserGet (loginThen decode st response).1 =
      JSVal.obj [
        ("username", getProp (tokenData decode (loginTokenStep st response)) "un"),
        ("name", jsOr (getProp (tokenData decode (loginTokenStep st response)) "n") .null),
        ("authrocketId",
          jsOr (getProp (tokenData decode (loginTokenStep st response)) "uid") .null)] := by
  have htd : truthy (tokenData decode (loginTokenStep st response)) = true :=
    truthy_of_getProp hun
  have key : loginThen decode st response =
      (currentUserSet (loginTokenStep st response)
        (JSVal.obj [
          ("username", getProp (tokenData decode (loginTokenStep st response)) "un"),
          ("name", jsOr (getProp (tokenData decode (loginTokenStep st response)) "n") .null),
          ("authrocketId",
            jsOr (getProp (tokenData decode (loginTokenStep st response)) "uid") .null)]),
       .resolved (JSVal.obj [
          ("username", getProp (tokenData decode (loginTokenStep st response)) "un"),
          ("name", jsOr (getProp (tokenData decode (loginTokenStep st response)) "n") .null),
          ("authrocketId",
            jsOr (getProp (tokenData decode (loginTokenStep st response)) "uid") .null)])) := by
    rw [loginThen, if_neg hnot409]
    simp [hacct, htd, hun]
  refine ⟨key, ?_⟩
  rw [key]
  exact currentUserGet_currentUserSet _ _ rfl

/-- A pure token decoder producing legacy AuthRocket-shaped claims for the
concrete token `tkn`. -/
def legacyDecode : String → JSVal :=
  fun t => if t = "tkn" then .obj [("un", .str "legacyUser")] else .null

/-- C8 witness: a login response carrying only a token whose claims are
AuthRocket-shaped resolves with the remapped account, name and authrocketId
defaulting to null. -/
theorem login_legacy_claims_remap_witness :
    (loginThen legacyDecode (MatterState.mk JSVal.null []) (.obj [("token", .str "tkn")])).2 =
      Outcome.resolved (JSVal.obj [("username", .str "legacyUser"), ("name", JSVal.null),
        ("authrocketId", JSVal.null)]) := by
  rw [(login_legacy_claims_remap legacyDecode (MatterState.mk JSVal.null [])
    (.obj [("token", .str "tkn")]) (by decide) rfl rfl).1]
  rfl

/-- A pure token decoder whose claims carry the single group `admins`. -/
def groupsDecode : String → JSVal :=
  fun _ => .obj [("groups", .arr [.obj [("name", .str "admins")]])]

/-- A logged-in session state (token `T`, empty storage). -/
def groupsState : MatterState := MatterState.mk (.str "T") []

/-- C9 amended: group matching.  Anonymous sessions yield false from both
evaluators; for a logged-in session whose claims' groups all carry string
names, a comma-free non-empty string is in-group exactly when some group's
name equals it; the empty string is falsy input and yields false regardless
of the group list; a string containing a comma delegates to `isInGroups`
over the split list; an array delegates to `isInGroups`; and every other
argument shape yields false. -/
theorem isInGroup_matching_spec (decode : String → JSVal) (st : MatterState) :
    (isLoggedIn st = false →
      ∀ cg, isInGroup decode st cg = false ∧ isInGroups decode st cg = false) ∧
    (∀ gs : List JSVal, isLoggedIn st = true →
      getProp (tokenData decode st) "groups" = .arr gs →
      (∀ g ∈ gs, ∃ n, getProp g "name" = .str n) →
      ∀ x : String, x ≠ "" → x.toList.count ',' = 0 →
        (isInGroup decode st (.str x) = true ↔ ∃ g ∈ gs, getProp g "name" = .str x)) ∧
    (∀ x : String, isLoggedIn st = true → 0 < x.toList.count ',' →
      isInGroup decode st (.str x) =
        isInGroups decode st
          (.arr ((splitCommaChars x.toList).map (fun l => JSVal.str (String.mk l))))) ∧
    (∀ l : List JSVal, isLoggedIn st = true →
      isInGroup decode st (.arr l) = isInGroups decode st (.arr l)) ∧
    ((∀ n, isInGroup decode st (.num n) = false) ∧
      (∀ b, isInGroup decode st (.bool b) = false) ∧
      (∀ fs, isInGroup decode st (.obj fs) = false) ∧
      isInGroup decode st JSVal.null = false ∧
      isInGroup decode st JSVal.undefined = false ∧
      isInGroup decode st (.str "") = false) := by
  refine ⟨fun h cg => ?_, fun gs hlog hgroups hnames x hx hcount => ?_,
    fun x hlog hcount => ?_, fun l hlog => ?_, ?_, ?_, ?_, ?_, ?_, ?_⟩
  · constructor
    · cases cg <;> simp [isInGroup, h]
    · cases cg <;> simp [isInGroups, h]
  · have hsplit := splitCommaChars_eq_of_count_zero hcount
    rw [isInGroup]
    simp only [hlog, Bool.not_true, if_false, Bool.false_eq_true]
    have htr : truthy (.str x) = true := by simp [truthy, hx]
    simp only [htr, Bool.not_true, if_false, Bool.false_eq_true]
    simp only [hsplit, List.length_cons, List.length_nil]
    rw [dif_neg (by omega)]
    rw [hgroups]
    have harr : jsOr (.arr gs) (.arr []) = .arr gs := rfl
    rw [harr]
    simp only [lodashAny, List.any_eq_true]
    constructor
    · rintro ⟨g, hg, heq⟩
      obtain ⟨n, hn⟩ := hnames g hg
      rw [hn] at heq
      simp only [looseEqStr, decide_eq_true_eq] at heq
      exact ⟨g, hg, by rw [hn, heq]⟩
    · rintro ⟨g, hg, hn⟩
      exact ⟨g, hg, by rw [hn]; simp [looseEqStr]⟩
  · have hlen : (splitCommaChars x.toList).length > 1 := by
      rw [length_splitCommaChars]
      omega
    have hx : x ≠ "" := by
      intro hx0
      subst hx0
      exact absurd hcount (by decide)
    rw [isInGroup]
    have htr : truthy (.str x) = true := by simp [truthy, hx]
    simp only [hlog, htr, Bool.not_true, if_false, Bool.false_eq_true]
    rw [dif_pos hlen]
  · rw [isInGroup]
    have htr : truthy (JSVal.arr l) = true := rfl
    simp [hlog, htr]
  · intro n
    simp [isInGroup]
  · intro b
    rcases b <;> simp [isInGroup]
  · intro fs
    simp [isInGroup]
  · simp [isInGroup]
  · simp [isInGroup]
  · simp [isInGroup, truthy]

/-- A pure token decoder whose claims carry one group named by the empty
string. -/
def emptyNameDecode : String → JSVal :=
  fun _ => .obj [("groups", .arr [.obj [("name", .str "")]])]

/-- C9 counterexample: with a logged-in session whose decoded claims carry a
group whose name is the empty string, the comma-free string argument `""`
yields false from `isInGroup` (the falsy-argument guard fires first), even
though some group's name equals it exactly — refuting the claimed if and
only if for that one degenerate string. -/
theorem isInGroup_empty_string_counterexample :
    isInGroup emptyNameDecode groupsState (.str "") = false ∧
    getProp (tokenData emptyNameDecode groupsState) "groups" =
      .arr [JSVal.obj [("name", JSVal.str "")]] ∧
    getProp (JSVal.obj [("name", JSVal.str "")]) "name" = JSVal.str "" ∧
    ("" : String).toList.count ',' = 0 ∧
    isLoggedIn groupsState = true := by
  refine ⟨?_, rfl, rfl, rfl, rfl⟩
  simp [isInGroup, groupsState, isLoggedIn, truthy]

/-- C9 witness: with decoded claims carrying the single group admins, the
single-name check is true for admins and false for users. -/
theorem isInGroup_matching_spec_witness :
    isInGroup groupsDecode groupsState (.str "admins") = true ∧
    isInGroup groupsDecode groupsState (.str "users") = false := by
  have h := (isInGroup_matching_spec groupsDecode groupsState).2.1
    [.obj [("name", .str "admins")]] rfl rfl
    (by
      intro g hg
      simp only [List.mem_singleton] at hg
      subst hg
      exact ⟨"admins", rfl⟩)
  constructor
  · exact (h "admins" (by decide) (by decide)).mpr
      ⟨.obj [("name", .str "admins")], List.mem_singleton.mpr rfl, rfl⟩
  · have hiff := h "users" (by decide) (by decide)
    cases hb : isInGroup groupsDecode groupsState (.str "users")
    · rfl
    · exfalso
      rcases hiff.mp hb with ⟨g, hg, hname⟩
      simp only [List.mem_singleton] at hg
      subst hg
      simp [getProp, getField] at hname

/-- C2: the code diverges from the claimed semantics of `isInGroups`.  With
a logged-in session whose decoded claims carry the single group admins,
`isInGroup` of admins is true — so every element of the one-element list
made of admins evaluates true — yet `isInGroups` of that list is false,
because `every(mapped, true)` goes through lodash's iteratee shorthand and
tests the property named true of each mapped boolean (always undefined,
hence falsy); the empty list is vacuously true as claimed. -/
theorem isInGroups_every_shorthand_divergence :
    isInGroup groupsDecode groupsState (.str "admins") = true ∧
    isInGroups groupsDecode groupsState (.arr [.str "admins"]) = false ∧
    isInGroups groupsDecode groupsState (.arr []) = true ∧
    lodashEveryTrue [true] = false := by
  refine ⟨?_, ?_, ?_, rfl⟩
  · simp [isInGroup, groupsState, groupsDecode, isLoggedIn, truthy, splitCommaChars,
      tokenData, getProp, getField, jsOr, lodashAny, looseEqStr]
  · simp [isInGroups, groupsState, isLoggedIn, truthy, lodashEveryTrue, getProp]
  · simp [isInGroups, groupsState, isLoggedIn, truthy, lodashEveryTrue]

end MatterLib
